import Mathlib

/-!
# Verification of the AgentAudit MCP server core

A shallow embedding of `src/index.ts` of `agentaudit-mcp-server`: the HTTP
client adapter (`apiFetch`), the package lookup (`fetchSkill`), the severity
glyph (`riskEmoji`), the result formatter (`formatResult`), the config
extractor (`extractPackagesFromConfig`), the scan sorting and risk counting,
and the `search_packages` handler body.

Conventions of the embedding:
* JavaScript strings are Lean `String`s viewed as their character lists
  (`String.data`); `slice`, `startsWith`, `includes`, `toLowerCase`,
  `toUpperCase` are modelled on character lists.
* `x ?? d` on an optional value is `Option.getD`; a field that may be
  `undefined`/`null` is an `Option`.
* JavaScript truthiness of an optional string (`if (r.error)`) is
  `jsTruthy`: present and non-empty.
* The network is modelled by an explicit `Response` (ok flag, status, body)
  and `JSON.parse` plus payload coercion by an explicit parse function
  `String → Except String α`, whose `error` case carries the thrown parse
  error's message; `await`ed rejections are the `thrown` constructor of
  `FetchOutcome`.
* `new Date(s).toISOString().split("T")[0]` is an opaque platform function,
  passed as a parameter `isoDate` to the formatter.
-/

namespace AgentAudit

/-- JS truthiness of an optional string value: defined (not `undefined`)
and non-empty. -/
def jsTruthy : Option String → Bool
  | some s => s ≠ ""
  | none => false

/-- Prefix test on character lists: models `s.startsWith(pre)`. -/
def strStarts (s pre : String) : Bool :=
  pre.data.isPrefixOf s.data

/-- Substring occurrence on character lists: models `l.includes(sub)`
for JS strings. -/
def containsSub : List Char → List Char → Bool
  | [], sub => sub.isEmpty
  | l@(_ :: t), sub => sub.isPrefixOf l || containsSub t sub

/-- Models `s.includes(sub)`. -/
def strIncludes (s sub : String) : Bool :=
  containsSub s.data sub.data

/-- Models `s.toLowerCase()` (ASCII-adequate, as the repository only
compares ASCII identifiers). -/
def strLower (s : String) : String :=
  ⟨s.data.map Char.toLower⟩

/-- Models `s.toUpperCase()` (ASCII-adequate). -/
def strUpper (s : String) : String :=
  ⟨s.data.map Char.toUpper⟩

/-- Models `s.slice(0, n)` for a non-negative `n`. -/
def strSlice (s : String) (n : Nat) : String :=
  ⟨s.data.take n⟩

/-- Code of `index.ts` lines 37 and 43: `text.startsWith("<!DOCTYPE") || text.startsWith("<html")`. -/
def looksLikeHtml (text : String) : Bool :=
  strStarts text "<!DOCTYPE" || strStarts text "<html"

/-- The duck-typed remote payload of `GET /skills/{name}`: every field the
lookup reads off the parsed JSON object, each possibly absent
(`undefined`/`null`). -/
structure SkillData where
  slug : Option String
  display_name : Option String
  trust_score : Option Int
  latest_risk_score : Option Int
  latest_result : Option String
  total_findings : Option Nat
  total_reports : Option Nat
  scan_type : Option String
  source_url : Option String
  first_audited_at : Option String
  last_audited_at : Option String
deriving DecidableEq

/-- Outcome of one `apiFetch` call as observed by its caller:
the `null` return (not found), a parsed payload, or a thrown error
(transport, HTTP, or JSON parse) carrying its message. -/
inductive FetchOutcome (α : Type) where
  | notFound
  | success (data : α)
  | thrown (msg : String)
deriving DecidableEq

/-- An HTTP response as observed after `fetch` resolves: `res.ok`,
`res.status`, and the text of the body. -/
structure Response where
  ok : Bool
  status : Nat
  body : String
deriving DecidableEq

/-- The error message of `throw new Error(`HTTP ${res.status}: ${text.slice(0, 200)}`)`
(`index.ts` line 40). -/
def httpErrMsg (status : Nat) (body : String) : String :=
  "HTTP " ++ toString status ++ ": " ++ strSlice body 200

/-- Model of `apiFetch` (`index.ts` lines 25–47) after the response has resolved,
parameterised by the JSON-parse-and-coerce step `parse` (its `Except.error`
is a thrown parse error's message).  Not modelled: the 10-second abort,
which surfaces as a rejection of `fetch` itself, i.e. as a `thrown`
outcome at the caller. -/
def apiFetch {α : Type} (parse : String → Except String α) (res : Response) :
    FetchOutcome α :=
  if !res.ok then
    if looksLikeHtml res.body then .notFound
    else .thrown (httpErrMsg res.status res.body)
  else if looksLikeHtml res.body then .notFound
  else
    match parse res.body with
    | .ok v => .success v
    | .error m => .thrown m

/-- The normalized `SkillResult` record (`index.ts` lines 10–23); the spec's
`PackageRecord`.  All fields are total except the failure discriminator
`error`. -/
structure SkillResult where
  slug : String
  display_name : String
  trust_score : Option Int
  latest_risk_score : Option Int
  latest_result : String
  total_findings : Nat
  total_reports : Nat
  scan_type : String
  source_url : Option String
  first_audited_at : Option String
  last_audited_at : Option String
  error : Option String
deriving DecidableEq

/-- Model of `fetchSkill` (`index.ts` lines 49–71) as a function of the queried name
and the outcome of its `apiFetch` call: the `!data` branch, the success
mapping with `??` defaults, and the `catch` branch.  It is a total
function — every outcome, including a thrown error, yields a record. -/
def fetchSkill (name : String) (outcome : FetchOutcome SkillData) : SkillResult :=
  match outcome with
  | .notFound =>
      { slug := name, display_name := name, trust_score := none,
        latest_risk_score := none, latest_result := "unknown",
        total_findings := 0, total_reports := 0, scan_type := "unknown",
        source_url := none, first_audited_at := none, last_audited_at := none,
        error := some "Package not found in AgentAudit database" }
  | .success data =>
      { slug := data.slug.getD name,
        display_name := data.display_name.getD name,
        trust_score := data.trust_score,
        latest_risk_score := data.latest_risk_score,
        latest_result := data.latest_result.getD "unknown",
        total_findings := data.total_findings.getD 0,
        total_reports := data.total_reports.getD 0,
        scan_type := data.scan_type.getD "unknown",
        source_url := data.source_url,
        first_audited_at := data.first_audited_at,
        last_audited_at := data.last_audited_at,
        error := none }
  | .thrown msg =>
      { slug := name, display_name := name, trust_score := none,
        latest_risk_score := none, latest_result := "error",
        total_findings := 0, total_reports := 0, scan_type := "unknown",
        source_url := none, first_audited_at := none, last_audited_at := none,
        error := some msg }

/-- Model of `riskEmoji` (`index.ts` lines 73–78). -/
def riskEmoji : Option Int → String
  | none => "❓"
  | some score => if 70 ≤ score then "🔴" else if 40 ≤ score then "🟡" else "🟢"

/-- Rendering of `${x}` for `x : number | null` after `x ?? "N/A"`. -/
def showScore : Option Int → String
  | some n => toString n
  | none => "N/A"

/-- The `lines` array built by `formatResult` (`index.ts` lines 80–94),
before the final `join("\n")`.  `isoDate` is the opaque platform step
`s => new Date(s).toISOString().split("T")[0]`.  The `if (r.error)`,
`if (r.source_url)` and `if (r.last_audited_at)` tests are JS truthiness
on optional strings. -/
def formatLines (isoDate : String → String) (r : SkillResult) : List String :=
  let hd := riskEmoji r.latest_risk_score ++ " **" ++ r.display_name ++ "** ("
    ++ r.scan_type ++ ")"
  if jsTruthy r.error then
    [hd, "  ⚠️ " ++ r.error.getD ""]
  else
    [hd,
     "  Trust Score: " ++ showScore r.trust_score ++ "/100",
     "  Risk Score: " ++ showScore r.latest_risk_score ++ "/100",
     "  Verdict: " ++ strUpper r.latest_result,
     "  Findings: " ++ toString r.total_findings ++ " (from "
       ++ toString r.total_reports ++ " audit"
       ++ (if r.total_reports ≠ 1 then "s" else "") ++ ")"]
    ++ (if jsTruthy r.source_url then ["  Source: " ++ r.source_url.getD ""] else [])
    ++ (if jsTruthy r.last_audited_at then
          ["  Last audited: " ++ isoDate (r.last_audited_at.getD "")] else [])
    ++ ["  Details: https://agentaudit.dev/packages/" ++ r.slug]

/-- Model of `formatResult` (`index.ts` line 93): the lines joined with `"\n"`. -/
def formatResult (isoDate : String → String) (r : SkillResult) : String :=
  String.intercalate "\n" (formatLines isoDate r)

/-! ## Config extractor (`index.ts` lines 109–126) -/

/-- One entry of the server map: the only field the extractor reads is
`args` (`val.args ?? []`). -/
structure ServerEntry where
  args : Option (List String)
deriving DecidableEq

/-- The parsed configuration document as the extractor sees it:
`config.mcpServers ?? config.mcp_servers ?? {}`.  Entry lists are in
`Object.entries` (insertion) order. -/
structure McpConfig where
  mcpServers : Option (List (String × ServerEntry))
  mcp_servers : Option (List (String × ServerEntry))
deriving DecidableEq

/-- Evaluation of `config.mcpServers ?? config.mcp_servers ?? \x7b\x7d`. -/
def configServers (c : McpConfig) : List (String × ServerEntry) :=
  (c.mcpServers.getD (c.mcp_servers.getD []))

/-- The per-argument filter of the extractor's inner loop
(`index.ts` lines 117–118): not dash/slash/dot-leading, leading char in
`[a-z@]` (the regex `/^[a-z@]/`), and not a known launcher token. -/
def isCandidateArg (arg : String) : Bool :=
  !strStarts arg "-" && !strStarts arg "/" && !strStarts arg "." &&
  (match arg.data with
   | [] => false
   | c :: _ => ('a' ≤ c && c ≤ 'z') || c = '@') &&
  (arg ≠ "-y" && arg ≠ "node" && arg ≠ "npx")

/-- The candidates the inner loop pushes for one entry, in argument order. -/
def argCandidates (e : ServerEntry) : List String :=
  (e.args.getD []).filter isCandidateArg

/-- The `packages` array after the `for` loop of
`extractPackagesFromConfig`, before `[...new Set(packages)]`: for each
entry the filtered arguments are pushed, then the entry's key. -/
def extractPass (servers : List (String × ServerEntry)) : List String :=
  servers.foldl (fun acc kv => (acc ++ argCandidates kv.2) ++ [kv.1]) []

/-- Model of `[...new Set(packages)]`: deduplication keeping the first occurrence
of each element, in order. -/
def dedupFirstAux (seen : List String) : List String → List String
  | [] => []
  | x :: xs =>
      if seen.contains x then dedupFirstAux seen xs
      else x :: dedupFirstAux (x :: seen) xs

/-- Entry point of the first-occurrence deduplication. -/
def dedupFirst (l : List String) : List String :=
  dedupFirstAux [] l

/-- Model of `extractPackagesFromConfig` (`index.ts` lines 109–126) applied to an
already-parsed document (`JSON.parse` being the platform parser; a parse
failure raises before this logic runs and is out of its scope). -/
def extractPackagesFromConfig (c : McpConfig) : List String :=
  dedupFirst (extractPass (configServers c))

/-! ## Scan handler pieces (`index.ts` lines 161–170) -/

/-- The sort key of the comparator `(b.latest_risk_score ?? -1) - (a.latest_risk_score ?? -1)`. -/
def riskKey (r : SkillResult) : Int :=
  r.latest_risk_score.getD (-1)

/-- The descending-by-risk order the comparator induces. -/
def riskDesc (a b : SkillResult) : Prop :=
  riskKey b ≤ riskKey a

instance : DecidableRel riskDesc := fun a b => by
  unfold riskDesc; infer_instance

instance : IsTotal SkillResult riskDesc :=
  ⟨fun a b => le_total (riskKey b) (riskKey a)⟩

instance : IsTrans SkillResult riskDesc :=
  ⟨fun _ _ _ h1 h2 => le_trans h2 h1⟩

/-- Model of `results.sort((a, b) => (b.latest_risk_score ?? -1) - (a.latest_risk_score ?? -1))`
(`index.ts` line 168): a stable sort by descending risk key. -/
def sortByRisk (rs : List SkillResult) : List SkillResult :=
  rs.insertionSort riskDesc

/-- Model of `results.filter(r => !r.error && (r.latest_risk_score ?? 0) >= 40)`
(`index.ts` line 162): the records counted as elevated risk. -/
def riskyFilter (rs : List SkillResult) : List SkillResult :=
  rs.filter (fun r => !jsTruthy r.error && decide ((40 : Int) ≤ r.latest_risk_score.getD 0))

/-! ## search_packages handler (`index.ts` lines 178–201) -/

/-- One element of the `GET /skills` list payload, duck-typed: the fields
the search handler reads, each possibly absent. -/
structure SearchEntry where
  slug : Option String
  display_name : Option String
  trust_score : Option Int
  latest_risk_score : Option Int
  latest_result : Option String
deriving DecidableEq

/-- The match predicate of `all.filter(...)` (`index.ts` lines 185–187):
case-insensitive substring match of the query against slug or display
name, each coalesced to `""`. -/
def searchPred (q : String) (s : SearchEntry) : Bool :=
  strIncludes (strLower (s.slug.getD "")) q ||
  strIncludes (strLower (s.display_name.getD "")) q

/-- The filtered (pre-`slice`) match list for a query. -/
def searchMatches (all : List SearchEntry) (query : String) : List SearchEntry :=
  all.filter (searchPred (strLower query))

/-- Rendering of `${m.display_name ?? m.slug}` (an absent slug prints as
the string `"undefined"`, as JS template interpolation does). -/
def searchName (m : SearchEntry) : String :=
  (m.display_name.orElse (fun _ => m.slug)).getD "undefined"

/-- One per-match line of the search output (`index.ts` line 195). -/
def searchLine (m : SearchEntry) : String :=
  riskEmoji m.latest_risk_score ++ " **" ++ searchName m ++ "** — Trust: "
    ++ (match m.trust_score with | some n => toString n | none => "?") ++ "/100, Risk: "
    ++ (match m.latest_risk_score with | some n => toString n | none => "?")
    ++ "/100, Verdict: " ++ strUpper (m.latest_result.getD "?")

/-- The header line of the search output (`index.ts` line 193); `shown` is
`matches.length` after the `slice`. -/
def searchHeader (shown total : Nat) (query : String) : String :=
  "🔎 " ++ toString shown ++ " results for \"" ++ query ++ "\" ("
    ++ toString total ++ " total in database)\n"

/-- The no-match message (`index.ts` line 191). -/
def noMatchesMsg (query : String) (total : Nat) : String :=
  "No packages matching \"" ++ query ++ "\" found in AgentAudit database ("
    ++ toString total ++ " total packages)."

/-- The text produced by the `search_packages` handler once the `GET /skills`
list `all` has arrived (`index.ts` lines 184–197): filter, `slice(0, limit ?? 10)`
(`limit` a non-negative integer when present), then either the no-match
message or the header joined with one line per shown match. -/
def searchText (all : List SearchEntry) (query : String) (limit : Option Nat) : String :=
  let shown := (searchMatches all query).take (limit.getD 10)
  if shown.length = 0 then
    noMatchesMsg query all.length
  else
    String.intercalate "\n" (searchHeader shown.length all.length query :: shown.map searchLine)

/-! ## Concrete fixtures used by counterexamples and witnesses -/

/-- The parsed form of the configuration text
`{"mcpServers": {"fetch": {"args": ["-y", "mcp-server-fetch"]}}}`. -/
def exampleConfig : McpConfig :=
  { mcpServers := some [("fetch", { args := some ["-y", "mcp-server-fetch"] })],
    mcp_servers := none }

/-- An empty duck-typed payload (all fields absent). -/
def emptySkillData : SkillData :=
  { slug := none, display_name := none, trust_score := none,
    latest_risk_score := none, latest_result := none, total_findings := none,
    total_reports := none, scan_type := none, source_url := none,
    first_audited_at := none, last_audited_at := none }

/-- A record whose `error` field is present but holds the empty string:
JS truthiness treats it as falsy. -/
def emptyErrRecord : SkillResult :=
  { slug := "p", display_name := "p", trust_score := none,
    latest_risk_score := none, latest_result := "unknown", total_findings := 0,
    total_reports := 0, scan_type := "unknown", source_url := none,
    first_audited_at := none, last_audited_at := none, error := some "" }

/-- A record with a non-empty error, as the catch branch of the lookup
produces it. -/
def boomRecord : SkillResult :=
  fetchSkill "p" (.thrown "boom")

/-- The lookup record of a candidate whose remote data carries risk 80. -/
def rec80 : SkillResult :=
  fetchSkill "b" (.success { emptySkillData with
    slug := some "b", display_name := some "b", latest_risk_score := some 80 })

/-- The lookup record of a candidate not found remotely: risk score null. -/
def recNull : SkillResult :=
  fetchSkill "a" .notFound

/-- A stub `GET /skills` list: two `crew`-prefixed entries and one other;
no score contains the digit 2. -/
def stubAll : List SearchEntry :=
  [ { slug := some "crewai", display_name := some "crewai",
      trust_score := some 90, latest_risk_score := some 80,
      latest_result := some "fail" },
    { slug := some "crew-tools", display_name := some "crew-tools",
      trust_score := some 90, latest_risk_score := some 10,
      latest_result := some "pass" },
    { slug := some "other", display_name := some "other",
      trust_score := some 90, latest_risk_score := some 10,
      latest_result := some "pass" } ]

/-- A one-entry stub list. -/
def stubOne : List SearchEntry :=
  stubAll.take 1

/-! ## Helper lemmas -/

/-- The empty character list occurs in every list: models
`s.includes("") === true`. -/
theorem containsSub_nil (l : List Char) : containsSub l [] = true := by
  cases l with
  | nil => rfl
  | cons c t => simp [containsSub, List.isPrefixOf]

/-- Folding the extractor's push loop from any accumulator appends the
per-entry segments, each of the form argument-candidates-then-key. -/
theorem extractPass_from (servers : List (String × ServerEntry))
    (init : List String) :
    servers.foldl (fun acc kv => (acc ++ argCandidates kv.2) ++ [kv.1]) init
      = init ++ servers.flatMap (fun kv => argCandidates kv.2 ++ [kv.1]) := by
  induction servers generalizing init with
  | nil => simp
  | cons kv rest ih =>
      rw [List.foldl_cons, ih, List.flatMap_cons]
      simp [List.append_assoc]

/-- On a record produced by the lookup, excluding error records does not
change the elevated-risk test: error records have a null risk score. -/
theorem risky_test_eq (name : String) (o : FetchOutcome SkillData) :
    (!jsTruthy (fetchSkill name o).error
        && decide ((40 : Int) ≤ (fetchSkill name o).latest_risk_score.getD 0))
      = decide ((40 : Int) ≤ (fetchSkill name o).latest_risk_score.getD 0) := by
  cases o with
  | notFound => simp [fetchSkill]
  | thrown msg => simp [fetchSkill]
  | success d => simp [fetchSkill, jsTruthy]

/-! ## C1 -/

/-- C1: the lookup never raises (it is a total function of the remote
outcome) and returns a fully populated record in each case: on `NotFound`
all score fields are null, the verdict is `"unknown"` and the error is the
fixed not-found text; on a thrown transport or parse error the verdict is
`"error"` and the error field carries the thrown message; on a success
payload no error is recorded. -/
theorem fetchSkill_captures_failures (name msg : String) (d : SkillData) :
    ((fetchSkill name .notFound).trust_score = none
      ∧ (fetchSkill name .notFound).latest_risk_score = none
      ∧ (fetchSkill name .notFound).latest_result = "unknown"
      ∧ (fetchSkill name .notFound).error
          = some "Package not found in AgentAudit database")
  ∧ ((fetchSkill name (.thrown msg)).latest_result = "error"
      ∧ (fetchSkill name (.thrown msg)).error = some msg)
  ∧ (fetchSkill name (.success d)).error = none :=
  ⟨⟨rfl, rfl, rfl, rfl⟩, ⟨rfl, rfl⟩, rfl⟩

/-! ## C2 -/

/-- C2: the HTTP adapter realizes the tri-state contract: an HTML-looking
body yields `NotFound` regardless of the status; a non-success status with
a non-HTML body throws an error carrying the status code and the body
truncated to at most 200 characters; a success status with a non-HTML body
parses the body as JSON, a parse failure propagating as a thrown error. -/
theorem apiFetch_tristate {α : Type} (parse : String → Except String α)
    (res : Response) :
    (looksLikeHtml res.body = true → apiFetch parse res = .notFound)
  ∧ (res.ok = false → looksLikeHtml res.body = false →
      apiFetch parse res = .thrown (httpErrMsg res.status res.body)
        ∧ (strSlice res.body 200).length ≤ 200)
  ∧ (res.ok = true → looksLikeHtml res.body = false →
      (∀ v, parse res.body = .ok v → apiFetch parse res = .success v)
        ∧ (∀ m, parse res.body = .error m → apiFetch parse res = .thrown m)) := by
  refine ⟨fun hHtml => ?_, fun hok hHtml => ⟨?_, ?_⟩, fun hok hHtml => ⟨?_, ?_⟩⟩
  · cases hok : res.ok <;> simp [apiFetch, hok, hHtml]
  · simp [apiFetch, hok, hHtml]
  · show (strSlice res.body 200).length ≤ 200
    have : (strSlice res.body 200).length = (res.body.data.take 200).length := rfl
    rw [this, List.length_take]
    exact min_le_left _ _
  · intro v hv; simp [apiFetch, hok, hHtml, hv]
  · intro m hm; simp [apiFetch, hok, hHtml, hm]

/-- Witness instantiating C2 at concrete responses: an HTML body on a 2xx,
a plain non-success status, and a parsed success payload. -/
theorem apiFetch_tristate_w :
    apiFetch (fun _ => (Except.ok emptySkillData : Except String SkillData))
        { ok := true, status := 200, body := "<html>err" } = .notFound
  ∧ apiFetch (fun _ => (Except.ok emptySkillData : Except String SkillData))
        { ok := false, status := 500, body := "oops" }
      = .thrown (httpErrMsg 500 "oops")
  ∧ apiFetch (fun _ => (Except.ok emptySkillData : Except String SkillData))
        { ok := true, status := 200, body := "ok" } = .success emptySkillData :=
  ⟨(apiFetch_tristate _ _).1 (by decide),
   ((apiFetch_tristate _ _).2.1 rfl (by decide)).1,
   ((apiFetch_tristate _ _).2.2 rfl (by decide)).1 emptySkillData rfl⟩

/-! ## C3 -/

/-- C3 counterexample: on the example configuration the pre-deduplication
candidate list is the filtered arguments followed by the server key, so the
key `"fetch"` does not precede the argument token `"mcp-server-fetch"` as
the claim states. -/
theorem extract_key_order_cex :
    extractPass (configServers exampleConfig) = ["mcp-server-fetch", "fetch"]
  ∧ ¬ ((extractPass (configServers exampleConfig)).indexOf "fetch"
        < (extractPass (configServers exampleConfig)).indexOf "mcp-server-fetch") := by
  decide

/-- C3 amended: for every server map, the extractor records the candidates
drawn from an entry's launch-argument list before the entry's own key —
within one server entry the argument tokens precede the key in the
pre-deduplication candidate order. -/
theorem extract_args_before_key (servers : List (String × ServerEntry)) :
    extractPass servers
      = servers.flatMap (fun kv => argCandidates kv.2 ++ [kv.1]) := by
  have h := extractPass_from servers []
  simpa [extractPass] using h

/-! ## C4 -/

/-- C4: on the config text
`{"mcpServers": {"fetch": {"args": ["-y", "mcp-server-fetch"]}}}` the
extractor returns exactly `["mcp-server-fetch", "fetch"]` — the launcher
token `-y` excluded and the server key included. -/
theorem extract_example_config :
    extractPackagesFromConfig exampleConfig = ["mcp-server-fetch", "fetch"] := by
  decide

/-! ## C5 -/

/-- C5 counterexample: against a stub list whose only digit-2-free scores
rule out coincidences, the query `"crew"` has two matches, yet with limit 1
the rendered output nowhere contains the digit 2 — its header counts 1, the
truncated number of results, so the header does not state the total number
of matches independent of the limit. -/
theorem search_header_not_total_cex :
    (searchMatches stubAll "crew").length = 2
  ∧ strIncludes (searchText stubAll "crew" (some 1)) "🔎 1 results for" = true
  ∧ strIncludes (searchText stubAll "crew" (some 1)) "2" = false := by
  refine ⟨by decide, by decide, by decide⟩

/-- C5 amended: the handler truncates the case-insensitive matches to the
limit (default 10), returning exactly `min limit matchCount` formatted
result lines; the `results for` header states the truncated (displayed)
result count together with the total number of packages in the database —
not the total number of matches; with zero displayed matches it reports the
no-matches message, which includes the database total. -/
theorem search_truncation (all : List SearchEntry) (query : String)
    (limit : Option Nat) :
    ((searchMatches all query).take (limit.getD 10)).length
        = min (limit.getD 10) (searchMatches all query).length
  ∧ (((searchMatches all query).take (limit.getD 10)).length ≠ 0 →
      searchText all query limit
        = String.intercalate "\n"
            (searchHeader ((searchMatches all query).take (limit.getD 10)).length
                all.length query
              :: ((searchMatches all query).take (limit.getD 10)).map searchLine))
  ∧ (((searchMatches all query).take (limit.getD 10)).length = 0 →
      searchText all query limit = noMatchesMsg query all.length) := by
  refine ⟨List.length_take _ _, fun h => ?_, fun h => ?_⟩
  · simp only [searchText]
    rw [if_neg h]
  · simp only [searchText]
    rw [if_pos h]

/-- Witness instantiating C5 amended at the stub list with limit 1. -/
theorem search_truncation_w :
    ((searchMatches stubAll "crew").take ((some 1 : Option Nat).getD 10)).length ≠ 0
  ∧ searchText stubAll "crew" (some 1)
      = String.intercalate "\n"
          (searchHeader
              ((searchMatches stubAll "crew").take ((some 1 : Option Nat).getD 10)).length
              stubAll.length "crew"
            :: ((searchMatches stubAll "crew").take
                  ((some 1 : Option Nat).getD 10)).map searchLine) :=
  ⟨by decide, (search_truncation stubAll "crew" (some 1)).2.1 (by decide)⟩

/-! ## C6 -/

/-- C6: the scan handler's rendering order is descending by risk score with
a missing score treated as `-1` (hence below every present score): the
sorted list is ordered by that key and is a permutation of the lookup
results; in particular a risk-80 record is rendered before a risk-null
record. -/
theorem scan_sorted_desc :
    (∀ r : SkillResult, r.latest_risk_score = none → riskKey r = -1)
  ∧ (∀ rs : List SkillResult,
        (sortByRisk rs).Sorted riskDesc ∧ (sortByRisk rs).Perm rs)
  ∧ sortByRisk [recNull, rec80] = [rec80, recNull] :=
  ⟨fun r h => by simp [riskKey, h],
   fun rs => ⟨List.sorted_insertionSort riskDesc rs, List.perm_insertionSort riskDesc rs⟩,
   by decide⟩

/-! ## C7 -/

/-- C7 counterexample: a record whose `error` field is present but holds
the empty string is rendered through the non-error branch — the output has
six lines and includes the trust-score line, although the claim requires
only the header and a warning line whenever `error` is present. -/
theorem format_error_empty_cex :
    emptyErrRecord.error = some ""
  ∧ "  Trust Score: N/A/100" ∈ formatLines (fun s => s) emptyErrRecord
  ∧ (formatLines (fun s => s) emptyErrRecord).length ≠ 2 :=
  ⟨rfl, by decide, by decide⟩

/-- C7 amended: for every record whose `error` is present and non-empty
(the code tests JS truthiness, so an empty error string falls through to
the score lines), the formatter emits only the header line and one warning
line with the error text; for every record whose `error` is absent or
empty it emits the fixed-order lines with `N/A` for absent scores, the
optional source and date lines only when present (and non-empty), and the
noun `audit` exactly when the report count is 1. -/
theorem formatRecord_error_amended (isoDate : String → String) (r : SkillResult) :
    (∀ e, r.error = some e → e ≠ "" →
      formatLines isoDate r
        = [riskEmoji r.latest_risk_score ++ " **" ++ r.display_name ++ "** ("
             ++ r.scan_type ++ ")",
           "  ⚠️ " ++ e])
  ∧ (jsTruthy r.error = false →
      formatLines isoDate r
        = [riskEmoji r.latest_risk_score ++ " **" ++ r.display_name ++ "** ("
             ++ r.scan_type ++ ")",
           "  Trust Score: " ++ showScore r.trust_score ++ "/100",
           "  Risk Score: " ++ showScore r.latest_risk_score ++ "/100",
           "  Verdict: " ++ strUpper r.latest_result,
           "  Findings: " ++ toString r.total_findings ++ " (from "
             ++ toString r.total_reports ++ " audit"
             ++ (if r.total_reports ≠ 1 then "s" else "") ++ ")"]
          ++ (if jsTruthy r.source_url then ["  Source: " ++ r.source_url.getD ""] else [])
          ++ (if jsTruthy r.last_audited_at then
                ["  Last audited: " ++ isoDate (r.last_audited_at.getD "")] else [])
          ++ ["  Details: https://agentaudit.dev/packages/" ++ r.slug])
  ∧ (((if r.total_reports ≠ 1 then "s" else "") = "") ↔ r.total_reports = 1) := by
  refine ⟨fun e he hne => ?_, fun hfalse => ?_, ?_⟩
  · have ht : jsTruthy (some e) = true := by simp [jsTruthy, hne]
    simp [formatLines, he, ht]
  · simp [formatLines, hfalse]
  · constructor
    · intro hs
      by_contra h
      rw [if_pos h] at hs
      exact absurd hs (by decide)
    · intro h
      rw [if_neg (not_not_intro h)]

/-- Witness instantiating C7 amended at a record carrying the error
message produced by a thrown lookup. -/
theorem formatRecord_error_amended_w :
    boomRecord.error = some "boom"
  ∧ formatLines (fun s => s) boomRecord = ["❓ **p** (unknown)", "  ⚠️ boom"] :=
  ⟨rfl,
   ((formatRecord_error_amended (fun s => s) boomRecord).1 "boom" rfl
       (by decide)).trans (by decide)⟩

/-! ## C8 -/

/-- C8: the glyph choice is monotone-threshold correct — a null score gives
the unknown glyph, a score at least 70 the high glyph, a score in `[40, 70)`
the medium glyph, a score below 40 the low glyph; the four outcomes are
exhaustive (the thresholds 70 and 40 split `Int` into three disjoint bands,
and null is the fourth, disjoint case). -/
theorem riskEmoji_thresholds :
    riskEmoji none = "❓"
  ∧ (∀ s : Int, 70 ≤ s → riskEmoji (some s) = "🔴")
  ∧ (∀ s : Int, 40 ≤ s → s < 70 → riskEmoji (some s) = "🟡")
  ∧ (∀ s : Int, s < 40 → riskEmoji (some s) = "🟢")
  ∧ (∀ o : Option Int,
      riskEmoji o = "❓" ∨ riskEmoji o = "🔴" ∨ riskEmoji o = "🟡"
        ∨ riskEmoji o = "🟢") := by
  refine ⟨rfl, fun s h => ?_, fun s h1 h2 => ?_, fun s h => ?_, fun o => ?_⟩
  · simp [riskEmoji, h]
  · have h70 : ¬ (70 ≤ s) := by omega
    simp [riskEmoji, h70, h1]
  · have h70 : ¬ (70 ≤ s) := by omega
    have h40 : ¬ (40 ≤ s) := by omega
    simp [riskEmoji, h70, h40]
  · cases o with
    | none => exact Or.inl rfl
    | some s =>
        simp only [riskEmoji]
        split_ifs <;> simp

/-- Witness instantiating C8 at scores 80, 55 and 10. -/
theorem riskEmoji_thresholds_w :
    ((70 : Int) ≤ 80 ∧ riskEmoji (some 80) = "🔴")
  ∧ ((40 : Int) ≤ 55 ∧ (55 : Int) < 70 ∧ riskEmoji (some 55) = "🟡")
  ∧ ((10 : Int) < 40 ∧ riskEmoji (some 10) = "🟢") :=
  ⟨⟨by decide, riskEmoji_thresholds.2.1 80 (by decide)⟩,
   ⟨by decide, by decide, riskEmoji_thresholds.2.2.1 55 (by decide) (by decide)⟩,
   ⟨by decide, riskEmoji_thresholds.2.2.2.1 10 (by decide)⟩⟩

/-! ## C9 -/

/-- C9: whenever a lookup record carries an error, its scores are null, its
counts zero, its scan type `"unknown"`, and its slug and display name are
the queried name; consequently the scan handler's elevated-risk count,
which filters on the absence of an error and risk at least 40, equals the
plain count of records with (defaulted) risk score at least 40 — the
error-exclusion test is redundant. -/
theorem fetchSkill_error_invariant :
    (∀ (name : String) (o : FetchOutcome SkillData),
        ((fetchSkill name o).error).isSome = true →
          (fetchSkill name o).trust_score = none
        ∧ (fetchSkill name o).latest_risk_score = none
        ∧ (fetchSkill name o).total_findings = 0
        ∧ (fetchSkill name o).total_reports = 0
        ∧ (fetchSkill name o).scan_type = "unknown"
        ∧ (fetchSkill name o).slug = name
        ∧ (fetchSkill name o).display_name = name)
  ∧ (∀ lookups : List (String × FetchOutcome SkillData),
        (riskyFilter (lookups.map (fun p => fetchSkill p.1 p.2))).length
          = ((lookups.map (fun p => fetchSkill p.1 p.2)).filter
              (fun r => decide ((40 : Int) ≤ r.latest_risk_score.getD 0))).length) := by
  constructor
  · intro name o h
    cases o with
    | notFound => exact ⟨rfl, rfl, rfl, rfl, rfl, rfl, rfl⟩
    | success d => simp [fetchSkill] at h
    | thrown m => exact ⟨rfl, rfl, rfl, rfl, rfl, rfl, rfl⟩
  · intro lookups
    unfold riskyFilter
    congr 1
    apply List.filter_congr
    intro r hr
    rcases List.mem_map.1 hr with ⟨p, _, rfl⟩
    exact risky_test_eq p.1 p.2

/-- Witness instantiating C9 at a single not-found lookup. -/
theorem fetchSkill_error_invariant_w :
    ((fetchSkill "pkg" FetchOutcome.notFound).error).isSome = true
  ∧ ((fetchSkill "pkg" FetchOutcome.notFound).trust_score = none
      ∧ (fetchSkill "pkg" FetchOutcome.notFound).latest_risk_score = none
      ∧ (fetchSkill "pkg" FetchOutcome.notFound).total_findings = 0
      ∧ (fetchSkill "pkg" FetchOutcome.notFound).total_reports = 0
      ∧ (fetchSkill "pkg" FetchOutcome.notFound).scan_type = "unknown"
      ∧ (fetchSkill "pkg" FetchOutcome.notFound).slug = "pkg"
      ∧ (fetchSkill "pkg" FetchOutcome.notFound).display_name = "pkg") :=
  ⟨rfl, fetchSkill_error_invariant.1 "pkg" FetchOutcome.notFound rfl⟩

/-! ## C10 -/

/-- C10 counterexample: with limit 0 and a non-empty list, the empty query
matches every entry and yet the handler reports the no-matches message (the
slice empties the match list), contradicting the claim that a non-empty
list never yields the no-matches message. -/
theorem search_limit_zero_cex :
    stubOne ≠ []
  ∧ searchMatches stubOne "" = stubOne
  ∧ searchText stubOne "" (some 0)
      = "No packages matching \"\" found in AgentAudit database (1 total packages)." :=
  ⟨by decide, by decide, by decide⟩

/-- Every string contains the empty substring, as `includes("")` does. -/
theorem strIncludes_nil (s : String) : strIncludes s "" = true :=
  containsSub_nil s.data

/-- C10 amended: the empty query matches every entry of the fetched list (a
missing slug or display name coalesces to the empty string and the
empty-substring test holds for every string), so whenever the list is
non-empty and the effective limit is at least 1 the output is the header
followed by the first `min limit length` entries in fetch order, not the
no-matches message; with limit 0 the no-matches message is produced even
though every entry matches. -/
theorem search_empty_query (all : List SearchEntry) (limit : Option Nat) :
    searchMatches all "" = all
  ∧ (all ≠ [] → 1 ≤ limit.getD 10 →
      searchText all "" limit
        = String.intercalate "\n"
            (searchHeader (all.take (limit.getD 10)).length all.length ""
              :: (all.take (limit.getD 10)).map searchLine)) := by
  have hmatch : searchMatches all "" = all := by
    unfold searchMatches
    apply List.filter_eq_self.mpr
    intro s _
    have h1 : strLower "" = "" := rfl
    rw [h1]
    simp [searchPred, strIncludes_nil]
  refine ⟨hmatch, fun hne hlim => ?_⟩
  have h0 : ¬ ((all.take (limit.getD 10)).length = 0) := by
    rw [List.length_take]
    have := List.length_pos.mpr hne
    omega
  simp only [searchText, hmatch]
  rw [if_neg h0]

/-- Witness instantiating C10 amended at the one-entry stub with limit 5. -/
theorem search_empty_query_w :
    stubOne ≠ []
  ∧ 1 ≤ (some 5 : Option Nat).getD 10
  ∧ searchText stubOne "" (some 5)
      = String.intercalate "\n"
          (searchHeader (stubOne.take ((some 5 : Option Nat).getD 10)).length
              stubOne.length ""
            :: (stubOne.take ((some 5 : Option Nat).getD 10)).map searchLine) :=
  ⟨by decide, by decide,
   (search_empty_query stubOne (some 5)).2 (by decide) (by decide)⟩

end AgentAudit
